import Mathlib

/-!
Verification of the Orbital Task Engine execution core (`src/App.jsx`).

The core is the `TaskExecutionEngine` class: a subscriber set with
`subscribe`/`notify`, the sequential run loop `executeDAG`, and the
metrics aggregator `updateMetrics`.  We embed it shallowly:

* JavaScript numbers used here (success rate steps of 0.5, the 0.15
  threshold, the cost formula) are modelled as rationals — all the
  values that actually arise are exactly representable in binary
  floating point, so the model is faithful on the reachable states.
* `Math.random()` and the clock (`Date.now()` / `new Date()`) are
  modelled as explicit streams indexed by draw order: draw 0 is the
  cost, then each task consumes one draw for its simulated delay and
  one for its outcome.  Clock reads are numbered in call order.
* A JS object used as a map (`execution.tasks`) is an association list
  in insertion order; assigning to an existing key replaces the value
  in place (`upsert`), which also captures that the engine mutates the
  task-record object it has just inserted.
* `this.subscribers` is a JS `Set`, modelled as a duplicate-free list
  in insertion order.  `Set.prototype.forEach` visits elements in
  insertion order and skips an element that was deleted before being
  visited; `notifyRun` models exactly that.
-/

namespace Orbital

/-- Task status values used by the engine: `running`, `completed`, `failed`. -/
inductive Status where
  | running
  | completed
  | failed
deriving DecidableEq, Repr

/-- A task definition from a DAG's `tasks` array. -/
structure Task where
  id : String
  name : String
  type : String
  retries : Nat
deriving DecidableEq, Repr

/-- A DAG definition: id, name, description, version, ordered task list,
and the (unused-for-ordering) dependency mapping. -/
structure Dag where
  id : String
  name : String
  description : String
  version : String
  tasks : List Task
  dependencies : List (String × List String)
deriving DecidableEq, Repr

/-- A per-task execution record (`taskExecution` in the source). -/
structure TaskExecution where
  id : String
  status : Status
  startTime : Nat
  retries : Nat
  endTime : Option Nat
  error : Option String
deriving DecidableEq, Repr

/-- An execution record (`execution` in the source).  `tasks` is the
insertion-ordered task map. -/
structure Execution where
  id : String
  dag : String
  status : Status
  startTime : Nat
  tasks : List (String × TaskExecution)
  cost : ℚ
  endTime : Option Nat
  error : Option String
deriving DecidableEq, Repr

/-- An event passed to `notify`: a type tag, the execution record
(snapshotted at publication time), and optionally a task record. -/
structure Event where
  type : String
  execution : Execution
  task : Option TaskExecution
deriving DecidableEq, Repr

/-- The ambient sources of nondeterminism: `rnd n` is the value of the
n-th `Math.random()` call, `clock n` the value of the n-th clock read
(`Date.now()` or `new Date()`). -/
structure RunEnv where
  rnd : Nat → ℚ
  clock : Nat → Nat

/-- Assignment `m[k] = v` on a JS object used as a map: replace the value
of an existing key in place, otherwise append the new binding. -/
def upsert {α : Type} (k : String) (v : α) : List (String × α) → List (String × α)
  | [] => [(k, v)]
  | (k', v') :: rest => if k' = k then (k, v) :: rest else (k', v') :: upsert k v rest

/-- Result of the task loop inside `executeDAG`: the execution record and
event list so far, the next random/clock indices, and the message of the
thrown error if a task failed. -/
structure LoopResult where
  exec : Execution
  events : List Event
  ri : Nat
  ci : Nat
  thrown : Option String
deriving Repr

/-- The `for (const task of dag.tasks)` loop of `executeDAG`.  Each
iteration creates a running task record, inserts it, publishes
`task_started`, consumes one random draw for the simulated delay, then
samples the outcome: on `Math.random() > 0.15` the task completes and
`task_completed` is published; otherwise the record is marked failed
with error `"Task execution failed"` and `new Error('Task failed')` is
thrown, aborting the loop before any completion event. -/
def runTasks (env : RunEnv) : List Task → Execution → List Event → Nat → Nat → LoopResult
  | [], exec, evs, ri, ci => ⟨exec, evs, ri, ci, none⟩
  | t :: rest, exec, evs, ri, ci =>
    let te0 : TaskExecution :=
      { id := t.id, status := .running, startTime := env.clock ci,
        retries := 0, endTime := none, error := none }
    let exec1 := { exec with tasks := upsert t.id te0 exec.tasks }
    let evs1 := evs ++ [⟨"task_started", exec1, some te0⟩]
    -- the simulated delay `1000 + Math.random() * 2000` consumes draw `ri`
    if env.rnd (ri + 1) > 0.15 then
      let te1 := { te0 with status := .completed, endTime := some (env.clock (ci + 1)) }
      let exec2 := { exec1 with tasks := upsert t.id te1 exec1.tasks }
      let evs2 := evs1 ++ [⟨"task_completed", exec2, some te1⟩]
      runTasks env rest exec2 evs2 (ri + 2) (ci + 2)
    else
      let te1 := { te0 with status := .failed, endTime := some (env.clock (ci + 1)),
                            error := some "Task execution failed" }
      let exec2 := { exec1 with tasks := upsert t.id te1 exec1.tasks }
      ⟨exec2, evs1, ri + 2, ci + 2, some "Task failed"⟩

/-- `executeDAG`: create the execution record (id from the clock, cost
`Math.random() * 50 + 25`), publish `execution_started`, run the task
loop, then resolve the terminal status — `completed`, or `failed` with
the thrown error's message copied onto the record — and publish
`execution_completed`.  Returns the final record and the full list of
published events in order. -/
def initialRecord (env : RunEnv) (dag : Dag) : Execution :=
  { id := toString (env.clock 0), dag := dag.id, status := .running,
    startTime := env.clock 1, tasks := [], cost := env.rnd 0 * 50 + 25,
    endTime := none, error := none }

def executeDAG (env : RunEnv) (dag : Dag) : Execution × List Event :=
  let exec0 := initialRecord env dag
  let r := runTasks env dag.tasks exec0 [⟨"execution_started", exec0, none⟩] 1 2
  match r.thrown with
  | none =>
    let execF := { r.exec with status := .completed, endTime := some (env.clock r.ci) }
    (execF, r.events ++ [⟨"execution_completed", execF, none⟩])
  | some msg =>
    let execF := { r.exec with status := .failed, error := some msg,
                               endTime := some (env.clock r.ci) }
    (execF, r.events ++ [⟨"execution_completed", execF, none⟩])

/-- The engine's metrics object. -/
structure Metrics where
  totalExecutions : Nat
  successRate : ℚ
  avgExecutionTime : ℚ
  activeWorkers : Nat
  queueDepth : Int
deriving DecidableEq, Repr

/-- The metrics state set up in the `TaskExecutionEngine` constructor. -/
def initialMetrics : Metrics :=
  { totalExecutions := 0, successRate := 85, avgExecutionTime := 2.5,
    activeWorkers := 3, queueDepth := 5 }

/-- `updateMetrics(success)`: bump the run counter, move the success rate
up by 0.5 (capped at 95) or down by 1 (floored at 70), and decrement the
queue depth (floored at 0). -/
def updateMetrics (success : Bool) (m : Metrics) : Metrics :=
  let m1 := { m with totalExecutions := m.totalExecutions + 1 }
  let m2 :=
    if success then { m1 with successRate := min 95 (m1.successRate + 0.5) }
    else { m1 with successRate := max 70 (m1.successRate - 1) }
  { m2 with queueDepth := max 0 (m2.queueDepth - 1) }

/-- Metrics after a sequence of run outcomes, starting from the
constructor's state. -/
def runMetrics (outcomes : List Bool) : Metrics :=
  outcomes.foldl (fun m b => updateMetrics b m) initialMetrics

/-- The whole engine state: execution record store, subscriber set
(callback ids in insertion order), metrics. -/
structure Engine where
  executions : List (String × Execution)
  subscribers : List Nat
  metrics : Metrics

/-- The state the `TaskExecutionEngine` constructor builds. -/
def Engine.init : Engine := ⟨[], [], initialMetrics⟩

/-- One engine-level run: `executeDAG` plus its effects on the engine
state (record stored under its id, metrics updated with the outcome). -/
def engineExecuteDAG (env : RunEnv) (dag : Dag) (e : Engine) :
    Engine × Execution × List Event :=
  let (exec, evs) := executeDAG env dag
  ({ executions := upsert exec.id exec e.executions,
     subscribers := e.subscribers,
     metrics := updateMetrics (decide (exec.status = Status.completed)) e.metrics },
   exec, evs)

/-- `subscribe(callback)`: add to the subscriber set (a JS `Set`: adding
an element already present leaves the set unchanged). -/
def subscribe (c : Nat) (subs : List Nat) : List Nat :=
  if c ∈ subs then subs else subs ++ [c]

/-- The unsubscribe closure returned by `subscribe`:
`() => this.subscribers.delete(callback)`. -/
def unsubscribe (c : Nat) (subs : List Nat) : List Nat :=
  subs.erase c

/-- `notify(data)`: `this.subscribers.forEach(callback => callback(data))`.
`removeOf c` is the set of callbacks that callback `c` unsubscribes when
invoked.  The queue is the insertion-order snapshot; an element still in
the current set when reached is delivered to (and its removals applied),
an element deleted before being reached is skipped — the semantics of JS
`Set.prototype.forEach` under concurrent deletion.  Returns the list of
callbacks that received the event, in delivery order, and the final set. -/
def notifyRun (removeOf : Nat → List Nat) : List Nat → List Nat → List Nat × List Nat
  | [], cur => ([], cur)
  | c :: rest, cur =>
    if c ∈ cur then
      let r := notifyRun removeOf rest ((removeOf c).foldl (fun s x => s.erase x) cur)
      (c :: r.1, r.2)
    else
      notifyRun removeOf rest cur

/-- The `data_pipeline` entry of `SAMPLE_DAGS`. -/
def dataPipeline : Dag :=
  { id := "data_pipeline", name := "Data Processing Pipeline",
    description := "ETL pipeline for customer data", version := "1.2.0",
    tasks :=
      [ ⟨"extract", "Extract", "extract", 2⟩,
        ⟨"validate", "Validate", "validation", 1⟩,
        ⟨"transform", "Transform", "transformation", 3⟩,
        ⟨"load", "Load", "load", 2⟩ ],
    dependencies :=
      [ ("validate", ["extract"]),
        ("transform", ["validate"]),
        ("load", ["transform"]) ] }

/-- A concrete environment in which every outcome draw succeeds. -/
def demoEnv : RunEnv := { rnd := fun _ => 1/2, clock := fun n => n }

/-- A concrete environment in which every outcome draw fails
(`0 > 0.15` is false). -/
def failEnv : RunEnv := { rnd := fun _ => 0, clock := fun n => n }

/-- The `(type, task id)` summary of an event, used to state ordering
properties of the published event sequence. -/
def eventSummary (ev : Event) : String × Option String :=
  (ev.type, ev.task.map TaskExecution.id)

/-- Expected task-map contents produced by the task loop: one completed
record per succeeding task, and a final failed record (with the fixed
error string) at the first failing task, after which nothing is added. -/
def taskRecords (env : RunEnv) : List Task → Nat → Nat → List (String × TaskExecution)
  | [], _, _ => []
  | t :: rest, ri, ci =>
    if env.rnd (ri + 1) > 0.15 then
      (t.id, ⟨t.id, .completed, env.clock ci, 0, some (env.clock (ci + 1)), none⟩) ::
        taskRecords env rest (ri + 2) (ci + 2)
    else
      [(t.id, ⟨t.id, .failed, env.clock ci, 0, some (env.clock (ci + 1)),
               some "Task execution failed"⟩)]

/-- Expected task-level event summaries: a `task_started`/`task_completed`
pair per succeeding task, and a lone `task_started` at the first failure. -/
def taskEventSummary (env : RunEnv) : List Task → Nat → List (String × Option String)
  | [], _ => []
  | t :: rest, ri =>
    if env.rnd (ri + 1) > 0.15 then
      ("task_started", some t.id) :: ("task_completed", some t.id) ::
        taskEventSummary env rest (ri + 2)
    else
      [("task_started", some t.id)]

/-- The message of the error thrown by the task loop, if any. -/
def failMsgOf (env : RunEnv) : List Task → Nat → Option String
  | [], _ => none
  | _ :: rest, ri =>
    if env.rnd (ri + 1) > 0.15 then failMsgOf env rest (ri + 2) else some "Task failed"

/-- How many tasks of the list actually start (all of them, or up to and
including the first failure). -/
def startedCount (env : RunEnv) : List Task → Nat → Nat
  | [], _ => 0
  | _ :: rest, ri =>
    if env.rnd (ri + 1) > 0.15 then startedCount env rest (ri + 2) + 1 else 1

theorem upsert_of_not_mem {α : Type} {k : String} {l : List (String × α)} (v : α)
    (h : k ∉ l.map Prod.fst) : upsert k v l = l ++ [(k, v)] := by
  induction l with
  | nil => rfl
  | cons p rest ih =>
    obtain ⟨k', v'⟩ := p
    simp only [List.map_cons, List.mem_cons, not_or] at h
    have hne : ¬ k' = k := fun hk => h.1 hk.symm
    simp only [upsert, if_neg hne, List.cons_append, List.cons.injEq, true_and]
    exact ih h.2

theorem upsert_append_self {α : Type} {k : String} {l : List (String × α)} (v v₀ : α)
    (h : k ∉ l.map Prod.fst) : upsert k v (l ++ [(k, v₀)]) = l ++ [(k, v)] := by
  induction l with
  | nil => simp [upsert]
  | cons p rest ih =>
    obtain ⟨k', v'⟩ := p
    simp only [List.map_cons, List.mem_cons, not_or] at h
    have hne : ¬ k' = k := fun hk => h.1 hk.symm
    simp only [List.cons_append, upsert, if_neg hne, List.cons.injEq, true_and]
    exact ih h.2

theorem mem_upsert_self {α : Type} (k : String) (v : α) (l : List (String × α)) :
    (k, v) ∈ upsert k v l := by
  induction l with
  | nil => simp [upsert]
  | cons p rest ih =>
    obtain ⟨k', v'⟩ := p
    by_cases hk : k' = k
    · simp [upsert, hk]
    · simp only [upsert, if_neg hk]
      exact List.mem_cons_of_mem _ ih

theorem runTasks_fields (env : RunEnv) (tasks : List Task) : ∀ (exec : Execution)
    (evs : List Event) (ri ci : Nat),
    (runTasks env tasks exec evs ri ci).exec =
      { exec with tasks := (runTasks env tasks exec evs ri ci).exec.tasks } := by
  induction tasks with
  | nil => intro exec evs ri ci; rfl
  | cons t rest ih =>
    intro exec evs ri ci
    simp only [runTasks]
    by_cases h : env.rnd (ri + 1) > 0.15
    · simp only [if_pos h]
      exact ih _ _ _ _
    · simp only [if_neg h]

theorem runTasks_cost (env : RunEnv) (tasks : List Task) (exec : Execution)
    (evs : List Event) (ri ci : Nat) :
    (runTasks env tasks exec evs ri ci).exec.cost = exec.cost := by
  rw [runTasks_fields]

theorem runTasks_error (env : RunEnv) (tasks : List Task) (exec : Execution)
    (evs : List Event) (ri ci : Nat) :
    (runTasks env tasks exec evs ri ci).exec.error = exec.error := by
  rw [runTasks_fields]

theorem runTasks_exec_tasks (env : RunEnv) (tasks : List Task) : ∀ (exec : Execution)
    (evs : List Event) (ri ci : Nat),
    (tasks.map Task.id).Nodup →
    (∀ t ∈ tasks, t.id ∉ exec.tasks.map Prod.fst) →
    (runTasks env tasks exec evs ri ci).exec.tasks =
      exec.tasks ++ taskRecords env tasks ri ci := by
  induction tasks with
  | nil => intro exec evs ri ci _ _; simp [runTasks, taskRecords]
  | cons t rest ih =>
    intro exec evs ri ci hnd hfresh
    simp only [List.map_cons, List.nodup_cons] at hnd
    have hfr : t.id ∉ exec.tasks.map Prod.fst := hfresh t (List.mem_cons_self t rest)
    simp only [runTasks, taskRecords]
    by_cases h : env.rnd (ri + 1) > 0.15
    · simp only [if_pos h]
      rw [ih _ _ _ _ hnd.2]
      · rw [upsert_of_not_mem _ hfr, upsert_append_self _ _ hfr]
        simp
      · intro s hs
        rw [upsert_of_not_mem _ hfr, upsert_append_self _ _ hfr]
        simp only [List.map_append, List.map_cons, List.map_nil, List.mem_append,
          List.mem_cons, List.not_mem_nil, or_false, not_or]
        exact ⟨fun hc => hfresh s (List.mem_cons_of_mem t hs) hc,
          fun hc => hnd.1 (hc ▸ List.mem_map_of_mem Task.id hs)⟩
    · simp only [if_neg h]
      rw [upsert_of_not_mem _ hfr, upsert_append_self _ _ hfr]

theorem runTasks_events (env : RunEnv) (tasks : List Task) : ∀ (exec : Execution)
    (evs : List Event) (ri ci : Nat),
    (runTasks env tasks exec evs ri ci).events.map eventSummary =
      evs.map eventSummary ++ taskEventSummary env tasks ri := by
  induction tasks with
  | nil => intro exec evs ri ci; simp [runTasks, taskEventSummary]
  | cons t rest ih =>
    intro exec evs ri ci
    simp only [runTasks, taskEventSummary]
    by_cases h : env.rnd (ri + 1) > 0.15
    · simp only [if_pos h]
      rw [ih]
      simp [eventSummary]
    · simp only [if_neg h]
      simp [eventSummary]

theorem runTasks_thrown (env : RunEnv) (tasks : List Task) : ∀ (exec : Execution)
    (evs : List Event) (ri ci : Nat),
    (runTasks env tasks exec evs ri ci).thrown = failMsgOf env tasks ri := by
  induction tasks with
  | nil => intro exec evs ri ci; rfl
  | cons t rest ih =>
    intro exec evs ri ci
    simp only [runTasks, failMsgOf]
    by_cases h : env.rnd (ri + 1) > 0.15
    · simp only [if_pos h]
      exact ih _ _ _ _
    · simp only [if_neg h]

theorem runTasks_failed_record (env : RunEnv) (tasks : List Task) : ∀ (exec : Execution)
    (evs : List Event) (ri ci : Nat) (m : String),
    (runTasks env tasks exec evs ri ci).thrown = some m →
    ∃ p ∈ (runTasks env tasks exec evs ri ci).exec.tasks,
      p.2.status = Status.failed ∧ p.2.error = some "Task execution failed" := by
  induction tasks with
  | nil => intro exec evs ri ci m hm; exact absurd hm (by simp [runTasks])
  | cons t rest ih =>
    intro exec evs ri ci m hm
    simp only [runTasks] at hm ⊢
    by_cases h : env.rnd (ri + 1) > 0.15
    · simp only [if_pos h] at hm ⊢
      exact ih _ _ _ _ m hm
    · simp only [if_neg h]
      refine ⟨(t.id, ⟨t.id, .failed, env.clock ci, 0, some (env.clock (ci + 1)),
        some "Task execution failed"⟩), mem_upsert_self _ _ _, rfl, rfl⟩

theorem failMsgOf_cases (env : RunEnv) (tasks : List Task) : ∀ ri,
    failMsgOf env tasks ri = none ∨ failMsgOf env tasks ri = some "Task failed" := by
  induction tasks with
  | nil => intro ri; left; rfl
  | cons t rest ih =>
    intro ri
    simp only [failMsgOf]
    by_cases h : env.rnd (ri + 1) > 0.15
    · simp only [if_pos h]
      exact ih (ri + 2)
    · simp [if_neg h]

theorem taskRecords_dichotomy (env : RunEnv) (tasks : List Task) : ∀ ri ci,
    (failMsgOf env tasks ri = none ∧
      (taskRecords env tasks ri ci).map Prod.fst = tasks.map Task.id ∧
      (taskRecords env tasks ri ci).map (fun p => p.2.status) =
        List.replicate tasks.length Status.completed) ∨
    (failMsgOf env tasks ri = some "Task failed" ∧
      ∃ i, i < tasks.length ∧
        (taskRecords env tasks ri ci).map Prod.fst = (tasks.map Task.id).take (i + 1) ∧
        (taskRecords env tasks ri ci).map (fun p => p.2.status) =
          List.replicate i Status.completed ++ [Status.failed]) := by
  induction tasks with
  | nil => intro ri ci; left; exact ⟨rfl, rfl, rfl⟩
  | cons t rest ih =>
    intro ri ci
    by_cases h : env.rnd (ri + 1) > 0.15
    · rcases ih (ri + 2) (ci + 2) with ⟨h1, h2, h3⟩ | ⟨h1, i, hi, h2, h3⟩
      · left
        refine ⟨by simp [failMsgOf, if_pos h, h1], ?_, ?_⟩
        · simp [taskRecords, if_pos h, h2]
        · simp [taskRecords, if_pos h, h3, List.replicate_succ]
      · right
        refine ⟨by simp [failMsgOf, if_pos h, h1], i + 1, by simpa using Nat.succ_lt_succ hi,
          ?_, ?_⟩
        · simp [taskRecords, if_pos h, h2, List.take_succ_cons]
        · simp [taskRecords, if_pos h, h3, List.replicate_succ]
    · right
      refine ⟨by simp [failMsgOf, if_neg h], 0, by simp, ?_, ?_⟩
      · simp [taskRecords, if_neg h]
      · simp [taskRecords, if_neg h]

theorem executeDAG_tasks (env : RunEnv) (dag : Dag)
    (hnd : (dag.tasks.map Task.id).Nodup) :
    (executeDAG env dag).1.tasks = taskRecords env dag.tasks 1 2 := by
  have ht := runTasks_exec_tasks env dag.tasks
    (initialRecord env dag)
    [⟨"execution_started", initialRecord env dag, none⟩] 1 2 hnd (by simp [initialRecord])
  simp only [List.nil_append] at ht
  simp only [executeDAG]
  split <;> simpa using ht

theorem executeDAG_status (env : RunEnv) (dag : Dag) :
    ((executeDAG env dag).1.status = Status.completed ∧
      failMsgOf env dag.tasks 1 = none ∧ (executeDAG env dag).1.error = none) ∨
    ((executeDAG env dag).1.status = Status.failed ∧
      failMsgOf env dag.tasks 1 = some "Task failed" ∧
      (executeDAG env dag).1.error = some "Task failed") := by
  have hth := runTasks_thrown env dag.tasks
    (initialRecord env dag)
    [⟨"execution_started", initialRecord env dag, none⟩] 1 2
  have herr := runTasks_error env dag.tasks
    (initialRecord env dag)
    [⟨"execution_started", initialRecord env dag, none⟩] 1 2
  rcases failMsgOf_cases env dag.tasks 1 with hc | hc
  · left
    rw [hc] at hth
    simp only [executeDAG]
    split
    · exact ⟨rfl, hc, herr⟩
    · rename_i msg hmsg
      rw [hth] at hmsg
      exact absurd hmsg (by simp)
  · right
    rw [hc] at hth
    simp only [executeDAG]
    split
    · rename_i hmsg
      rw [hth] at hmsg
      exact absurd hmsg (by simp)
    · rename_i msg hmsg
      rw [hth] at hmsg
      simp only [Option.some.injEq] at hmsg
      subst hmsg
      exact ⟨rfl, hc, rfl⟩

theorem executeDAG_summary (env : RunEnv) (dag : Dag) :
    ((executeDAG env dag).2).map eventSummary =
      ("execution_started", (none : Option String)) ::
        (taskEventSummary env dag.tasks 1 ++ [("execution_completed", none)]) := by
  have hev := runTasks_events env dag.tasks
    (initialRecord env dag)
    [⟨"execution_started", initialRecord env dag, none⟩] 1 2
  simp only [executeDAG]
  split <;> simp [hev, eventSummary]

theorem executeDAG_cost (env : RunEnv) (dag : Dag) :
    (executeDAG env dag).1.cost = env.rnd 0 * 50 + 25 := by
  have hc := runTasks_cost env dag.tasks
    (initialRecord env dag)
    [⟨"execution_started", initialRecord env dag, none⟩] 1 2
  simp only [executeDAG]
  split <;> simpa using hc

theorem updateMetrics_bounds (b : Bool) (m : Metrics)
    (h1 : 70 ≤ m.successRate) (h2 : m.successRate ≤ 95) :
    70 ≤ (updateMetrics b m).successRate ∧ (updateMetrics b m).successRate ≤ 95 := by
  cases b
  · refine ⟨le_max_left _ _, max_le (by norm_num) (by simp; linarith)⟩
  · refine ⟨le_min (by norm_num) (by simp; linarith), min_le_left _ _⟩

theorem foldl_updateMetrics_bounds (l : List Bool) : ∀ m : Metrics,
    70 ≤ m.successRate → m.successRate ≤ 95 →
    70 ≤ (l.foldl (fun m b => updateMetrics b m) m).successRate ∧
      (l.foldl (fun m b => updateMetrics b m) m).successRate ≤ 95 := by
  induction l with
  | nil => intro m h1 h2; exact ⟨h1, h2⟩
  | cons b rest ih =>
    intro m h1 h2
    simp only [List.foldl_cons]
    obtain ⟨g1, g2⟩ := updateMetrics_bounds b m h1 h2
    exact ih _ g1 g2

theorem mem_foldl_erase (c : Nat) (l : List Nat) : ∀ (s : List Nat), c ∈ s → c ∉ l →
    c ∈ l.foldl (fun s x => s.erase x) s := by
  induction l with
  | nil => intro s h _; exact h
  | cons r rest ih =>
    intro s hc hnl
    simp only [List.mem_cons, not_or] at hnl
    simp only [List.foldl_cons]
    exact ih _ ((List.mem_erase_of_ne hnl.1).mpr hc) hnl.2

theorem notifyRun_delivers (removeOf : Nat → List Nat) (c : Nat)
    (hsafe : ∀ x, c ∉ removeOf x) : ∀ (queue cur : List Nat),
    c ∈ queue → c ∈ cur → c ∈ (notifyRun removeOf queue cur).1 := by
  intro queue
  induction queue with
  | nil => intro cur hq _; exact absurd hq (List.not_mem_nil c)
  | cons a rest ih =>
    intro cur hq hc
    simp only [notifyRun]
    by_cases ha : a ∈ cur
    · simp only [if_pos ha]
      rcases List.mem_cons.mp hq with rfl | hq
      · exact List.mem_cons_self _ _
      · exact List.mem_cons_of_mem a
          (ih _ hq (mem_foldl_erase c (removeOf a) cur hc (hsafe a)))
    · simp only [if_neg ha]
      rcases List.mem_cons.mp hq with rfl | hq
      · exact absurd hc ha
      · exact ih _ hq hc

theorem notifyRun_no_removals : ∀ (queue cur : List Nat),
    (∀ x ∈ queue, x ∈ cur) → (notifyRun (fun _ => []) queue cur).1 = queue := by
  intro queue
  induction queue with
  | nil => intro cur _; rfl
  | cons a rest ih =>
    intro cur hsub
    simp only [notifyRun, if_pos (hsub a (List.mem_cons_self a rest)), List.foldl_nil,
      List.cons.injEq, true_and]
    exact ih cur fun x hx => hsub x (List.mem_cons_of_mem a hx)

theorem executeDAG_tasks_eq_run (env : RunEnv) (dag : Dag) :
    (executeDAG env dag).1.tasks =
      (runTasks env dag.tasks (initialRecord env dag)
        [⟨"execution_started", initialRecord env dag, none⟩] 1 2).exec.tasks := by
  simp only [executeDAG]
  split <;> rfl

theorem filterMap_taskEventSummary (env : RunEnv) (tasks : List Task) : ∀ ri,
    (taskEventSummary env tasks ri).filterMap
        (fun p => if p.1 = "task_started" then p.2 else none) =
      (tasks.map Task.id).take (startedCount env tasks ri) := by
  induction tasks with
  | nil => intro ri; rfl
  | cons t rest ih =>
    intro ri
    simp only [taskEventSummary, startedCount]
    by_cases h : env.rnd (ri + 1) > 0.15
    · simp only [if_pos h, List.filterMap_cons]
      simp [ih (ri + 2), List.take_succ_cons]
    · simp only [if_neg h, List.filterMap_cons]
      simp

/-- C1: for every DAG with a non-empty, duplicate-free task sequence and
every environment (outcome/clock streams), the record returned by
`executeDAG` either is `completed` with all N task records present (in
declared order) and `completed`, or is `failed` with exactly one `failed`
record at some position `i` (everything before it `completed`) and every
declared task after position `i` absent from the task map. -/
theorem c1_run_dichotomy (env : RunEnv) (dag : Dag)
    (_hne : dag.tasks ≠ []) (hnd : (dag.tasks.map Task.id).Nodup) :
    ((executeDAG env dag).1.status = Status.completed ∧
      (executeDAG env dag).1.tasks.map Prod.fst = dag.tasks.map Task.id ∧
      ∀ p ∈ (executeDAG env dag).1.tasks, p.2.status = Status.completed) ∨
    ((executeDAG env dag).1.status = Status.failed ∧
      ∃ i, i < dag.tasks.length ∧
        (executeDAG env dag).1.tasks.map Prod.fst = (dag.tasks.map Task.id).take (i + 1) ∧
        (executeDAG env dag).1.tasks.map (fun p => p.2.status) =
          List.replicate i Status.completed ++ [Status.failed] ∧
        ∀ t ∈ dag.tasks.drop (i + 1), t.id ∉ (executeDAG env dag).1.tasks.map Prod.fst) := by
  have htasks := executeDAG_tasks env dag hnd
  rcases executeDAG_status env dag with ⟨hs, hf, _⟩ | ⟨hs, hf, _⟩
  · left
    rcases taskRecords_dichotomy env dag.tasks 1 2 with ⟨_, h2, h3⟩ | ⟨h1, _⟩
    · refine ⟨hs, by rw [htasks, h2], ?_⟩
      intro p hp
      rw [htasks] at hp
      have hmem := List.mem_map_of_mem (fun q : String × TaskExecution => q.2.status) hp
      rw [h3] at hmem
      exact List.eq_of_mem_replicate hmem
    · rw [h1] at hf
      exact absurd hf (by simp)
  · right
    rcases taskRecords_dichotomy env dag.tasks 1 2 with ⟨h1, _⟩ | ⟨_, i, hi, h2, h3⟩
    · rw [h1] at hf
      exact absurd hf (by simp)
    · refine ⟨hs, i, hi, by rw [htasks, h2], by rw [htasks, h3], ?_⟩
      intro t ht hmem
      rw [htasks, h2] at hmem
      have hdrop : t.id ∈ (dag.tasks.map Task.id).drop (i + 1) := by
        rw [← List.map_drop]
        exact List.mem_map_of_mem Task.id ht
      exact (List.disjoint_take_drop hnd (le_refl (i + 1))) hmem hdrop

/-- Witness for C1: the sample `data_pipeline` DAG under the all-succeed
environment satisfies the hypotheses and the dichotomy. -/
theorem c1_run_dichotomy_witness :
    dataPipeline.tasks ≠ [] ∧ (dataPipeline.tasks.map Task.id).Nodup ∧
    (((executeDAG demoEnv dataPipeline).1.status = Status.completed ∧
      (executeDAG demoEnv dataPipeline).1.tasks.map Prod.fst =
        dataPipeline.tasks.map Task.id ∧
      ∀ p ∈ (executeDAG demoEnv dataPipeline).1.tasks, p.2.status = Status.completed) ∨
    ((executeDAG demoEnv dataPipeline).1.status = Status.failed ∧
      ∃ i, i < dataPipeline.tasks.length ∧
        (executeDAG demoEnv dataPipeline).1.tasks.map Prod.fst =
          (dataPipeline.tasks.map Task.id).take (i + 1) ∧
        (executeDAG demoEnv dataPipeline).1.tasks.map (fun p => p.2.status) =
          List.replicate i Status.completed ++ [Status.failed] ∧
        ∀ t ∈ dataPipeline.tasks.drop (i + 1),
          t.id ∉ (executeDAG demoEnv dataPipeline).1.tasks.map Prod.fst)) :=
  ⟨by decide, by decide, c1_run_dichotomy demoEnv dataPipeline (by decide) (by decide)⟩

/-- C2: starting from the constructor's metrics (success rate 85), after
any finite sequence of `updateMetrics` calls with arbitrary boolean
outcomes the success rate lies within [70, 95]. -/
theorem c2_success_rate_bounds (outcomes : List Bool) :
    70 ≤ (runMetrics outcomes).successRate ∧ (runMetrics outcomes).successRate ≤ 95 :=
  foldl_updateMetrics_bounds outcomes initialMetrics
    (by norm_num [initialMetrics]) (by norm_num [initialMetrics])

/-- C3 counterexample: the first event published by a run has type
`"execution_started"`, which is not one of the four type strings the
claim lists (`run_started`, `task_started`, `task_completed`,
`run_completed`). -/
theorem c3_counterexample :
    ((executeDAG demoEnv dataPipeline).2.map Event.type).head? =
      some "execution_started" ∧
    "execution_started" ∉
      ["run_started", "task_started", "task_completed", "run_completed"] := by
  constructor
  · with_unfolding_all decide
  · decide

/-- C3 (amended): every published event of a run has type one of
`execution_started`, `task_started`, `task_completed`,
`execution_completed`, and the events appear in strict causal order:
`execution_started` first, then a `task_started`/`task_completed` pair
per succeeding task in declared task-sequence order — the failing task,
if any, contributing only `task_started` — then `execution_completed`
last.  Stated as an exact characterization of the `(type, task id)`
summary of the published sequence. -/
theorem c3_event_order (env : RunEnv) (dag : Dag) :
    ((executeDAG env dag).2).map eventSummary =
      ("execution_started", (none : Option String)) ::
        (taskEventSummary env dag.tasks 1 ++ [("execution_completed", none)]) :=
  executeDAG_summary env dag

/-- C4 counterexample: with two subscribed callbacks, the first of which
unsubscribes the second when invoked, the second callback was subscribed
when delivery began yet does not receive the in-flight event (JS
`Set.forEach` skips elements deleted before being visited). -/
theorem c4_counterexample :
    (2 ∈ ([1, 2] : List Nat)) ∧
    (notifyRun (fun c => if c = 1 then [2] else []) [1, 2] [1, 2]).1 = [1] ∧
    (2 ∉ ([1] : List Nat)) := by
  refine ⟨by decide, by decide, by decide⟩

/-- C4 (amended): a callback that was subscribed when the delivery began
and that no callback unsubscribes during the delivery still receives the
event; a callback unsubscribed before being reached is skipped by the
in-flight delivery. -/
theorem c4_delivery_unless_removed (removeOf : Nat → List Nat) (subs : List Nat)
    (c : Nat) (hc : c ∈ subs) (hsafe : ∀ x, c ∉ removeOf x) :
    c ∈ (notifyRun removeOf subs subs).1 :=
  notifyRun_delivers removeOf c hsafe subs subs hc hc

/-- Witness for C4 (amended): a single subscribed callback that nobody
removes receives the event. -/
theorem c4_delivery_unless_removed_witness :
    (5 ∈ ([5] : List Nat)) ∧ (∀ x : Nat, 5 ∉ (fun _ : Nat => ([] : List Nat)) x) ∧
    5 ∈ (notifyRun (fun _ => []) [5] [5]).1 :=
  ⟨by decide, fun _ => List.not_mem_nil 5,
    c4_delivery_unless_removed (fun _ => []) [5] 5 (by decide)
      (fun _ => List.not_mem_nil 5)⟩

/-- C5: `executeDAG` always returns (the embedding is a total function —
no exception escapes it; subscriber callbacks are modelled as
non-throwing per the claim's precondition), and the returned record's
status is `completed` or `failed`. -/
theorem c5_no_escape (env : RunEnv) (dag : Dag) :
    (executeDAG env dag).1.status = Status.completed ∨
    (executeDAG env dag).1.status = Status.failed := by
  rcases executeDAG_status env dag with ⟨h, _, _⟩ | ⟨h, _, _⟩
  · exact Or.inl h
  · exact Or.inr h

/-- C6: the task ids carried by `task_started` events are exactly an
initial segment of the DAG's declared task array, in declared order; and
the dependency mapping has no influence at all — two DAGs differing only
in their dependency map produce identical runs (in particular identical
task execution order). -/
theorem c6_order_ignores_dependencies (env : RunEnv) (dag : Dag) :
    (∃ k, ((executeDAG env dag).2).filterMap
        (fun ev => if ev.type = "task_started" then ev.task.map TaskExecution.id
                   else none) =
      (dag.tasks.map Task.id).take k) ∧
    ∀ deps, executeDAG env { dag with dependencies := deps } = executeDAG env dag := by
  constructor
  · refine ⟨startedCount env dag.tasks 1, ?_⟩
    have h1 : ((executeDAG env dag).2).filterMap
        (fun ev => if ev.type = "task_started" then ev.task.map TaskExecution.id
                   else none) =
        (((executeDAG env dag).2).map eventSummary).filterMap
          (fun p => if p.1 = "task_started" then p.2 else none) := by
      rw [List.filterMap_map]
      rfl
    rw [h1, executeDAG_summary]
    simp [List.filterMap_append, filterMap_taskEventSummary]
  · intro deps
    rcases dag with ⟨i1, n1, d1, v1, ts1, dp1⟩
    rfl

/-- C7 counterexample: in a run that fails on its first task, the error
message stored on the Execution Record is `"Task failed"` (the thrown
error's message) while the failed task's record carries
`"Task execution failed"`; the two fixed strings differ, so the run
record's error does not equal the failed task's record error. -/
theorem c7_counterexample :
    (executeDAG failEnv dataPipeline).1.status = Status.failed ∧
    (executeDAG failEnv dataPipeline).1.error = some "Task failed" ∧
    (∀ p ∈ (executeDAG failEnv dataPipeline).1.tasks,
      p.2.error = some "Task execution failed") ∧
    ("Task failed" : String) ≠ "Task execution failed" := by
  with_unfolding_all decide

/-- C7 (amended): whenever a run ends `failed`, the error message stored
on the Execution Record is the thrown error's fixed message
`"Task failed"`, while the failed task's record carries the distinct
fixed string `"Task execution failed"`; the run record's error is the
triggering exception's message, not the task record's error string. -/
theorem c7_error_copied (env : RunEnv) (dag : Dag)
    (h : (executeDAG env dag).1.status = Status.failed) :
    (executeDAG env dag).1.error = some "Task failed" ∧
    (∃ p ∈ (executeDAG env dag).1.tasks,
      p.2.status = Status.failed ∧ p.2.error = some "Task execution failed") ∧
    (executeDAG env dag).1.error ≠ some "Task execution failed" := by
  rcases executeDAG_status env dag with ⟨hs, _, _⟩ | ⟨_, hf, herr⟩
  · rw [h] at hs
    exact absurd hs (by simp)
  · have hth := runTasks_thrown env dag.tasks (initialRecord env dag)
      [⟨"execution_started", initialRecord env dag, none⟩] 1 2
    rw [hf] at hth
    obtain ⟨p, hp, h1, h2⟩ := runTasks_failed_record env dag.tasks (initialRecord env dag)
      [⟨"execution_started", initialRecord env dag, none⟩] 1 2 "Task failed" hth
    refine ⟨herr, ⟨p, ?_, h1, h2⟩, by rw [herr]; simp⟩
    rw [executeDAG_tasks_eq_run]
    exact hp

/-- Witness for C7 (amended): the all-fail environment on the sample DAG
satisfies the hypothesis and the conclusion. -/
theorem c7_error_copied_witness :
    (executeDAG failEnv dataPipeline).1.status = Status.failed ∧
    ((executeDAG failEnv dataPipeline).1.error = some "Task failed" ∧
     (∃ p ∈ (executeDAG failEnv dataPipeline).1.tasks,
       p.2.status = Status.failed ∧ p.2.error = some "Task execution failed") ∧
     (executeDAG failEnv dataPipeline).1.error ≠ some "Task execution failed") :=
  ⟨by with_unfolding_all decide,
    c7_error_copied failEnv dataPipeline (by with_unfolding_all decide)⟩

/-- C8: when the cost draw (the first `Math.random()` call) lies in
[0, 1), the simulated monetary cost `Math.random() * 50 + 25` on the new
Execution Record lies in [25, 75). -/
theorem c8_cost_bounds (env : RunEnv) (dag : Dag)
    (h0 : 0 ≤ env.rnd 0) (h1 : env.rnd 0 < 1) :
    25 ≤ (executeDAG env dag).1.cost ∧ (executeDAG env dag).1.cost < 75 := by
  rw [executeDAG_cost]
  constructor
  · nlinarith
  · nlinarith

/-- Witness for C8: the all-succeed environment draws 1/2 ∈ [0, 1) and
the resulting cost is within [25, 75). -/
theorem c8_cost_bounds_witness :
    0 ≤ demoEnv.rnd 0 ∧ demoEnv.rnd 0 < 1 ∧
    (25 ≤ (executeDAG demoEnv dataPipeline).1.cost ∧
      (executeDAG demoEnv dataPipeline).1.cost < 75) :=
  ⟨by norm_num [demoEnv], by norm_num [demoEnv],
    c8_cost_bounds demoEnv dataPipeline (by norm_num [demoEnv]) (by norm_num [demoEnv])⟩

/-- C9: two executions on the same DAG, from the same engine state, that
consume identical random and clock values publish identical event
sequences — the run is a deterministic function of the DAG, the engine
state, and the sampled random/clock streams. -/
theorem c9_deterministic (env1 env2 : RunEnv) (dag1 dag2 : Dag) (e1 e2 : Engine)
    (henv : env1 = env2) (hdag : dag1 = dag2) (he : e1 = e2) :
    (engineExecuteDAG env1 dag1 e1).2.2 = (engineExecuteDAG env2 dag2 e2).2.2 := by
  subst henv
  subst hdag
  subst he
  rfl

/-- Witness for C9: concrete equal inputs yield the same event sequence. -/
theorem c9_deterministic_witness :
    demoEnv = demoEnv ∧ dataPipeline = dataPipeline ∧ Engine.init = Engine.init ∧
    (engineExecuteDAG demoEnv dataPipeline Engine.init).2.2 =
      (engineExecuteDAG demoEnv dataPipeline Engine.init).2.2 :=
  ⟨rfl, rfl, rfl,
    c9_deterministic demoEnv demoEnv dataPipeline dataPipeline Engine.init Engine.init
      rfl rfl rfl⟩

/-- C10: on a duplicate-free subscriber set (the JS `Set` invariant),
re-subscribing an already subscribed callback leaves the set unchanged;
a published event still reaches that callback exactly once; one call to
the returned unsubscribe function removes it entirely; and a further
unsubscribe call is a no-op. -/
theorem c10_subscribe_idempotent (subs : List Nat) (c : Nat) (hnd : subs.Nodup) :
    subscribe c (subscribe c subs) = subscribe c subs ∧
    ((notifyRun (fun _ => []) (subscribe c subs) (subscribe c subs)).1).count c = 1 ∧
    c ∉ unsubscribe c (subscribe c subs) ∧
    unsubscribe c (unsubscribe c (subscribe c subs)) =
      unsubscribe c (subscribe c subs) := by
  have hmem : c ∈ subscribe c subs := by
    by_cases h : c ∈ subs <;> simp [subscribe, h]
  have hnd2 : (subscribe c subs).Nodup := by
    by_cases h : c ∈ subs
    · simpa [subscribe, h] using hnd
    · simp only [subscribe, if_neg h]
      refine List.Nodup.append hnd (List.nodup_singleton c) ?_
      intro x hx hxc
      simp only [List.mem_singleton] at hxc
      exact h (hxc ▸ hx)
  refine ⟨?_, ?_, ?_, ?_⟩
  · show (if c ∈ subscribe c subs then subscribe c subs else subscribe c subs ++ [c]) =
      subscribe c subs
    rw [if_pos hmem]
  · rw [notifyRun_no_removals _ _ (fun x hx => hx)]
    exact List.count_eq_one_of_mem hnd2 hmem
  · exact List.Nodup.not_mem_erase hnd2
  · exact List.erase_of_not_mem (List.Nodup.not_mem_erase hnd2)

/-- Witness for C10: the empty (duplicate-free) subscriber set with
callback 0. -/
theorem c10_subscribe_idempotent_witness :
    ([] : List Nat).Nodup ∧
    (subscribe 0 (subscribe 0 []) = subscribe 0 [] ∧
     ((notifyRun (fun _ => []) (subscribe 0 []) (subscribe 0 [])).1).count 0 = 1 ∧
     0 ∉ unsubscribe 0 (subscribe 0 []) ∧
     unsubscribe 0 (unsubscribe 0 (subscribe 0 [])) = unsubscribe 0 (subscribe 0 [])) :=
  ⟨by decide, c10_subscribe_idempotent [] 0 (by decide)⟩

end Orbital
